import Mathlib

/-!
A shallow embedding of the automaton task-orchestration engine
(`index.js`, here `src/unnamed/part_000`) and of its line logger
(`src/lib/Logger.js`), together with theorems checking the
natural-language specification against that code.

Modelling conventions:
* JavaScript strings are modelled as lists of parts (`JStr`), where a part is
  either literal text, a `\x7b\x7bname\x7d\x7d` placeholder, or an escaped
  placeholder marker.  JavaScript values that can appear inside task options
  are modelled by `JSVal`.
* `undefined` object properties are modelled by `Option`/absence from an
  association list.
* The engine's continuation-passing control flow is strictly sequential and
  deterministic (every step defers on the event loop but steps never overlap),
  so it is modelled as a direct-style interpreter threading an explicit
  logger state and returning `Option Err`.  Recursion is bounded by an
  explicit fuel argument; real runs of finite task trees correspond to any
  sufficiently large fuel.
* Setup hooks are modelled as functions from the options object to an error
  and the (possibly mutated) options object; teardown hooks return an error.
  Hooks invoke their continuation exactly once, as the engine requires.
-/

namespace Automaton

/-- One piece of a JavaScript string: literal text, a placeholder, or an
escaped placeholder marker. -/
inductive SPart where
  | lit (s : String)
  | hole (name : String)
  | esc (name : String)
deriving DecidableEq, Repr

/-- A JavaScript string, as a list of parts. -/
abbrev JStr := List SPart

/-- A JavaScript value that can appear inside task options. -/
inductive JSVal where
  | str (parts : JStr)
  | num (n : Int)
  | bool (b : Bool)
  | obj (fields : List (JStr × JSVal))
  | arr (elems : List JSVal)
deriving Repr

mutual

/-- Decidable equality for `JSVal` (the nested inductive excludes deriving). -/
def decEqVal : (a b : JSVal) → Decidable (a = b)
  | .str p, .str q =>
    match inferInstanceAs (Decidable (p = q)) with
    | isTrue h => isTrue (by rw [h])
    | isFalse h => isFalse (fun hh => h (by cases hh; rfl))
  | .num m, .num n =>
    match inferInstanceAs (Decidable (m = n)) with
    | isTrue h => isTrue (by rw [h])
    | isFalse h => isFalse (fun hh => h (by cases hh; rfl))
  | .bool x, .bool y =>
    match inferInstanceAs (Decidable (x = y)) with
    | isTrue h => isTrue (by rw [h])
    | isFalse h => isFalse (fun hh => h (by cases hh; rfl))
  | .obj f, .obj g =>
    match decEqFields f g with
    | isTrue h => isTrue (by rw [h])
    | isFalse h => isFalse (fun hh => h (by cases hh; rfl))
  | .arr x, .arr y =>
    match decEqElems x y with
    | isTrue h => isTrue (by rw [h])
    | isFalse h => isFalse (fun hh => h (by cases hh; rfl))
  | .str _, .num _ => isFalse (fun h => JSVal.noConfusion h)
  | .str _, .bool _ => isFalse (fun h => JSVal.noConfusion h)
  | .str _, .obj _ => isFalse (fun h => JSVal.noConfusion h)
  | .str _, .arr _ => isFalse (fun h => JSVal.noConfusion h)
  | .num _, .str _ => isFalse (fun h => JSVal.noConfusion h)
  | .num _, .bool _ => isFalse (fun h => JSVal.noConfusion h)
  | .num _, .obj _ => isFalse (fun h => JSVal.noConfusion h)
  | .num _, .arr _ => isFalse (fun h => JSVal.noConfusion h)
  | .bool _, .str _ => isFalse (fun h => JSVal.noConfusion h)
  | .bool _, .num _ => isFalse (fun h => JSVal.noConfusion h)
  | .bool _, .obj _ => isFalse (fun h => JSVal.noConfusion h)
  | .bool _, .arr _ => isFalse (fun h => JSVal.noConfusion h)
  | .obj _, .str _ => isFalse (fun h => JSVal.noConfusion h)
  | .obj _, .num _ => isFalse (fun h => JSVal.noConfusion h)
  | .obj _, .bool _ => isFalse (fun h => JSVal.noConfusion h)
  | .obj _, .arr _ => isFalse (fun h => JSVal.noConfusion h)
  | .arr _, .str _ => isFalse (fun h => JSVal.noConfusion h)
  | .arr _, .num _ => isFalse (fun h => JSVal.noConfusion h)
  | .arr _, .bool _ => isFalse (fun h => JSVal.noConfusion h)
  | .arr _, .obj _ => isFalse (fun h => JSVal.noConfusion h)

/-- Decidable equality for object field lists. -/
def decEqFields : (a b : List (JStr × JSVal)) → Decidable (a = b)
  | [], [] => isTrue rfl
  | [], _ :: _ => isFalse (fun h => List.noConfusion h)
  | _ :: _, [] => isFalse (fun h => List.noConfusion h)
  | (k1, v1) :: r1, (k2, v2) :: r2 =>
    match inferInstanceAs (Decidable (k1 = k2)), decEqVal v1 v2, decEqFields r1 r2 with
    | isTrue h1, isTrue h2, isTrue h3 => isTrue (by rw [h1, h2, h3])
    | isFalse h1, _, _ =>
      isFalse (by intro h; injection h with hh ht; exact h1 (congrArg Prod.fst hh))
    | _, isFalse h2, _ =>
      isFalse (by intro h; injection h with hh ht; exact h2 (congrArg Prod.snd hh))
    | _, _, isFalse h3 => isFalse (by intro h; injection h with hh ht; exact h3 ht)

/-- Decidable equality for array element lists. -/
def decEqElems : (a b : List JSVal) → Decidable (a = b)
  | [], [] => isTrue rfl
  | [], _ :: _ => isFalse (fun h => List.noConfusion h)
  | _ :: _, [] => isFalse (fun h => List.noConfusion h)
  | v1 :: r1, v2 :: r2 =>
    match decEqVal v1 v2, decEqElems r1 r2 with
    | isTrue h1, isTrue h2 => isTrue (by rw [h1, h2])
    | isFalse h1, _ => isFalse (by intro h; injection h with hh ht; exact h1 hh)
    | _, isFalse h2 => isFalse (by intro h; injection h with hh ht; exact h2 ht)

end

instance : DecidableEq JSVal := decEqVal

/-- An error object; only the message is relevant to the engine. -/
structure Err where
  msg : String
deriving DecidableEq, Repr

/-- An options object / interpolation scope (a JavaScript plain object). -/
abbrev Scope := List (JStr × JSVal)

/-- Render a `JStr` to the text of the corresponding JavaScript string.
Unresolved placeholders render literally; escaped markers keep their
backslash. -/
def renderPart : SPart → String
  | .lit s => s
  | .hole n => "\x7b\x7b" ++ n ++ "\x7d\x7d"
  | .esc n => "\x5c\x7b\x5c\x7b" ++ n ++ "\x5c\x7d\x5c\x7d"

/-- Render a whole `JStr`. -/
def renderParts (s : JStr) : String :=
  s.foldl (fun acc p => acc ++ renderPart p) ("")

mutual

/-- JavaScript stringification of a value (`v + ''`). -/
def render : JSVal → String
  | .str p => renderParts p
  | .num n => toString n
  | .bool b => if b then ("true") else ("false")
  | .obj _ => "[object Object]"
  | .arr elems => renderList elems

/-- JavaScript `Array.prototype.toString`: elements joined by commas. -/
def renderList : List JSVal → String
  | [] => ""
  | [x] => render x
  | x :: rest => render x ++ "," ++ renderList rest

end

/-- JavaScript truthiness of a value (`!!v`). -/
def truthy : JSVal → Bool
  | .str p => renderParts p ≠ ""
  | .num n => n ≠ 0
  | .bool b => b
  | .obj _ => true
  | .arr _ => true

/-- Property lookup on an options object, by key. -/
def lookupScope (s : Scope) (k : JStr) : Option JSVal :=
  (s.find? (fun p => p.1 == k)).map (fun p => p.2)

/-- Placeholder lookup: a `\x7b\x7bname\x7d\x7d` hole is resolved against the
scope by the rendered name of each key. -/
def lookupByName (s : Scope) (n : String) : Option JSVal :=
  (s.find? (fun p => renderParts p.1 == n)).map (fun p => p.2)

/-- Property assignment on an options object. -/
def setKey (s : Scope) (k : JStr) (v : JSVal) : Scope :=
  if (lookupScope s k).isSome then
    s.map (fun p => if p.1 == k then (k, v) else p)
  else s ++ [(k, v)]

/-- Interpolation options, mirroring the option bags passed to the
interpolator: `purge` resolves unresolved placeholders to empty,
`skipUnescape` defers resolving escaped placeholder markers. -/
structure InterpOpts where
  purge : Bool
  skipUnescape : Bool
deriving DecidableEq, Repr

/-- Modelled from the spec: the string interpolation collaborator
(`./lib/string/castInterpolate`, whose source is not part of this
repository snapshot).  Per the spec contract it resolves placeholders in a
string against a scope with type-casting resolution: a string that is
exactly one placeholder resolves to the scope value itself, otherwise the
resolved values are stringified into the string.  `purge` makes an
unresolved placeholder become empty rather than stay literal, and
`skipUnescape` leaves explicitly escaped placeholder markers untouched,
while a non-skipping pass rewrites them to literal marker text. -/
def castInter (parts : JStr) (scope : Scope) (io : InterpOpts) : JSVal :=
  match parts with
  | [SPart.hole n] =>
    match lookupByName scope n with
    | some v => v
    | none => if io.purge then .str [] else .str parts
  | _ =>
    .str (parts.flatMap fun p =>
      match p with
      | .lit s => [SPart.lit s]
      | .hole n =>
        match lookupByName scope n with
        | some v => [SPart.lit (render v)]
        | none => if io.purge then [] else [SPart.hole n]
      | .esc n =>
        if io.skipUnescape then [SPart.esc n]
        else [SPart.lit ("\x7b\x7b" ++ n ++ "\x7d\x7d")])

/-- `Automaton.prototype._replacePlaceholders`: replace placeholders in a
string with their corresponding values (delegates to the interpolator). -/
def replacePlaceholders (s : JStr) (values : Scope) (io : InterpOpts) : JSVal :=
  castInter s values io

mutual

/-- `Automaton.prototype._replaceOptions`: replace target placeholders with
their corresponding option values, recursing through objects and arrays.
Keys of objects are interpolated and stringified (`newK = ... + ''`); the
in-place key rewrite of the source is modelled by rebuilding the field list
(the source's mid-iteration self-aliasing of `values` is not observable in
any claim under check). -/
def replaceOptions (target : JSVal) (values : Scope) (io : InterpOpts) : JSVal :=
  match target with
  | .obj fields => .obj (replaceFields fields values io)
  | .arr elems => .arr (replaceElems elems values io)
  | .str s => replacePlaceholders s values io
  | t => t

/-- Field traversal of `_replaceOptions` over a plain object. -/
def replaceFields (fields : List (JStr × JSVal)) (values : Scope) (io : InterpOpts) :
    List (JStr × JSVal) :=
  match fields with
  | [] => []
  | f :: rest =>
    ([SPart.lit (render (replacePlaceholders f.1 values io))],
       replaceOptions f.2 values io) :: replaceFields rest values io

/-- Element traversal of `_replaceOptions` over an array. -/
def replaceElems (elems : List JSVal) (values : Scope) (io : InterpOpts) :
    List JSVal :=
  match elems with
  | [] => []
  | x :: rest => replaceOptions x values io :: replaceElems rest values io

end

/-- `_replaceOptions` applied to an options object (the way the engine always
calls it: the target is `def.options`, a plain object). -/
def objReplace (opts : Scope) (values : Scope) (io : InterpOpts) : Scope :=
  replaceFields opts values io

/-! ## The Logger (`src/lib/Logger.js`)

The logger's read stream is modelled as the list of chunks emitted so far.
The ANSI styling applied by the `colors` collaborator is represented by
tagging each chunk with its theme type instead of inserting escape codes
(`automaton_info` etc. are colour names; no claim inspects styled text). -/

/-- One chunk emitted on the logger's read stream, tagged with the theme
type it would be styled with (`none` when untyped or colours are off). -/
structure OutChunk where
  text : String
  ctype : Option String
deriving DecidableEq, Repr

/-- The logger's state: construction options (`verbosity`, `debug`, `color`),
the mute flag, the last-line flag `_ln`, the current depth, and the stream
of emitted chunks. -/
structure LogState where
  verbosity : Int
  debug : Bool
  color : Bool
  muted : Bool
  ln : Bool
  depth : Int
  out : List OutChunk
deriving DecidableEq, Repr

namespace Logger

/-- `mout.string.repeat`: repeat a string `n` times. -/
def repeatStr (s : String) (n : Nat) : String :=
  String.join (List.replicate n s)

/-- A fresh logger as built by the constructor: `_ln = true`, depth 1,
unmuted, empty stream; options default to `verbosity: -1`, `debug: false`,
`color: true` unless overridden. -/
def init (verbosity : Int) (debug : Bool) (color : Bool) : LogState :=
  { verbosity := verbosity, debug := debug, color := color,
    muted := false, ln := true, depth := 1, out := [] }

/-- The stored `_padding`: two spaces per depth level beyond the first
(recomputed rather than cached; `setDepth` is its only writer). -/
def padding (st : LogState) : String :=
  if st.depth > 1 then repeatStr ("  ") ((st.depth - 1).toNat) else ""

/-- `Logger.prototype.setDepth`: set the current depth, clamped below at 1. -/
def setDepth (st : LogState) (d : Int) : LogState :=
  { st with depth := if d < 1 then 1 else d }

/-- `Logger.prototype.mute`. -/
def mute (st : LogState) : LogState := { st with muted := true }

/-- `Logger.prototype.unmute`. -/
def unmute (st : LogState) : LogState := { st with muted := false }

/-- `Logger.prototype.isMuted`. -/
def isMuted (st : LogState) : Bool := st.muted

/-- `mout.string.endsWith(data, '\n')`: does the string end with a newline? -/
def endsWithNewline (s : String) : Bool :=
  s.data.getLast? == some '\n'

/-- `Logger.prototype._indent` (regex `(\r?)\n(.+?)` replaced globally by
`$1\n<padding>$2`): insert the padding after every newline that is followed
by at least one further character that is not itself a newline. -/
def indentChars (pad : List Char) : List Char → List Char
  | [] => []
  | '\n' :: rest =>
    match rest with
    | [] => ['\n']
    | c :: rest2 =>
      if c = '\n' then '\n' :: indentChars pad (c :: rest2)
      else '\n' :: (pad ++ (c :: indentChars pad rest2))
  | c :: rest => c :: indentChars pad rest
termination_by l => l.length

/-- `_indent` on strings. -/
def indentStr (pad : String) (s : String) : String :=
  String.mk (indentChars pad.data s.data)

/-- Recognise one `ESC [ digits m` colour sequence after its ESC byte,
returning the remaining characters. -/
def dropColorSeq : List Char → Option (List Char)
  | '[' :: rest =>
    if (rest.takeWhile Char.isDigit).isEmpty then none
    else
      match rest.dropWhile Char.isDigit with
      | 'm' :: r => some r
      | _ => none
  | _ => none

theorem dropColorSeq_length {l r : List Char} (h : dropColorSeq l = some r) :
    r.length < l.length := by
  unfold dropColorSeq at h
  split at h
  · rename_i rest
    split at h
    · cases h
    · split at h
      · rename_i r2 heq
        cases h
        have hlen : (rest.dropWhile Char.isDigit).length ≤ rest.length :=
          (List.dropWhile_suffix _).length_le
        rw [heq] at hlen
        simp only [List.length_cons] at hlen ⊢
        omega
      · cases h
  · cases h

/-- `Logger.removeColors` (regex `\x1B\[\d+m` removed globally). -/
def removeColorsAux : List Char → List Char
  | [] => []
  | c :: rest =>
    if c = '\x1b' then
      match hm : dropColorSeq rest with
      | some r => removeColorsAux r
      | none => c :: removeColorsAux rest
    else c :: removeColorsAux rest
termination_by l => l.length
decreasing_by
  all_goals simp only [List.length_cons]
  · have := dropColorSeq_length hm
    omega
  · omega
  · omega

/-- `Logger.removeColors` on strings. -/
def removeColors (s : String) : String :=
  String.mk (removeColorsAux s.data)

/-- `Logger.prototype._checkLevel`: debug messages require the debug option;
otherwise a message passes when verbosity is `-1` or the depth is within the
verbosity. -/
def checkLevel (st : LogState) (dbg : Bool) : Bool :=
  if dbg && !st.debug then false
  else st.verbosity == -1 || decide (st.depth ≤ st.verbosity)

/-- `Logger.prototype._arr2str`: join the arguments with single spaces
(`str += arg + ' '` then `slice(0, -1)`). -/
def arr2str (args : List String) : String :=
  String.mk ((args.foldl (fun acc a => acc ++ a ++ " ") ("")).data.dropLast)

/-- The final styling step of `_log`/`_logln`: with colours off, strip any
escape sequences and the theme; with colours on, tag the chunk with its
theme type. -/
def styleChunk (st : LogState) (data : String) (ty : Option String) : OutChunk :=
  if !st.color then { text := removeColors data, ctype := none }
  else { text := data, ctype := ty }

/-- `Logger.prototype._log`: when unmuted and the level check passes, pad
after a fresh line, track the `_ln` flag, indent interior newlines, style,
and emit; otherwise do nothing. -/
def log (st : LogState) (data : String) (ty : Option String) (dbg : Bool) :
    LogState :=
  if !st.muted && checkLevel st dbg then
    let data1 := if st.ln then padding st ++ data else data
    let ln1 := if st.ln then false else st.ln
    let ln2 := if endsWithNewline data1 then true else ln1
    let data2 := indentStr (padding st) data1
    { st with ln := ln2, out := st.out ++ [styleChunk st data2 ty] }
  else st

/-- `Logger.prototype._logln`: when unmuted and the level check passes, set
the `_ln` flag, pad and indent, style, and emit with a trailing newline;
otherwise do nothing. -/
def logln (st : LogState) (data : String) (ty : Option String) (dbg : Bool) :
    LogState :=
  if !st.muted && checkLevel st dbg then
    let data2 := padding st ++ indentStr (padding st) data
    let c := styleChunk st data2 ty
    { st with ln := true, out := st.out ++ [{ c with text := c.text ++ "\n" }] }
  else st

/-- `Logger.prototype.write`. -/
def write (st : LogState) (args : List String) : LogState :=
  log st (arr2str args) none false

/-- `Logger.prototype.writeln`. -/
def writeln (st : LogState) (args : List String) : LogState :=
  logln st (arr2str args) none false

/-- `Logger.prototype.info`. -/
def info (st : LogState) (args : List String) : LogState :=
  log st (arr2str args) (some ("info")) false

/-- `Logger.prototype.infoln`. -/
def infoln (st : LogState) (args : List String) : LogState :=
  logln st (arr2str args) (some ("info")) false

/-- `Logger.prototype.warn`. -/
def warn (st : LogState) (args : List String) : LogState :=
  log st (arr2str args) (some ("warn")) false

/-- `Logger.prototype.warnln`. -/
def warnln (st : LogState) (args : List String) : LogState :=
  logln st (arr2str args) (some ("warn")) false

/-- `Logger.prototype.error`. -/
def error (st : LogState) (args : List String) : LogState :=
  log st (arr2str args) (some ("error")) false

/-- `Logger.prototype.errorln`. -/
def errorln (st : LogState) (args : List String) : LogState :=
  logln st (arr2str args) (some ("error")) false

/-- `Logger.prototype.success`. -/
def success (st : LogState) (args : List String) : LogState :=
  log st (arr2str args) (some ("success")) false

/-- `Logger.prototype.successln`. -/
def successln (st : LogState) (args : List String) : LogState :=
  logln st (arr2str args) (some ("success")) false

/-- `Logger.prototype.debug`: only actually logs when the debug option is
enabled. -/
def debug (st : LogState) (args : List String) : LogState :=
  log st (arr2str args) (some ("debug")) true

/-- `Logger.prototype.debugln`. -/
def debugln (st : LogState) (args : List String) : LogState :=
  logln st (arr2str args) (some ("debug")) true

end Logger

/-! ## The engine (`index.js`)

Task-id references (`_assertTaskLoaded`/`getTask`) resolve through the
registry when the batch is compiled; the trees modelled here carry their
definitions already resolved (no claim involves the registry), and a string
task outside a delegated (grunt) step is modelled as the not-found
assertion error.  `TaskBuilder.validate` only rejects malformed shapes and
is not modelled: the modelled trees are well-formed by construction. -/

/-- The runtime outcome of the delegated external runner for one step.
Modelled from the spec: the external runner contract is
`run(taskSpec, options, delegationConfig) -> emitter{data, error, end}`;
a run emits a sequence of data chunks and then signals either an error or
its end. -/
structure GruntExt where
  output : List String
  result : Option Err

/-- The three-way `on`/`mute` modifier of a subtask spec (string, function of
`(parentOptions, context)`, or any other literal value), or no declaration
(`hasOwnProperty` false). -/
inductive OnMod where
  | undeclared
  | str (s : JStr)
  | fn (f : Scope → Bool)
  | lit (v : JSVal)

/-- The three-way `fatal` modifier (its function form receives
`(err, parentOptions, context)`), or no declaration. -/
inductive FatalMod where
  | undeclared
  | str (s : JStr)
  | fn (f : Err → Scope → Bool)
  | lit (v : JSVal)

/-- The `description` property of a subtask spec: absent (`undefined`),
explicitly `null`, a string, or a function of the parent options. -/
inductive DescV where
  | vabsent
  | vnull
  | vstr (s : JStr)
  | vfn (f : Scope → JStr)

/-- The modifier-bearing part of a subtask spec (everything of the spec
object other than its `task` reference): declared options, the delegation
marker together with the modelled runner outcome, and the `on`/`mute`/
`fatal`/`description` modifiers. -/
structure SubMeta where
  options : Scope
  grunt : Option GruntExt
  onM : OnMod
  muteM : OnMod
  fatalM : FatalMod
  descr : DescV

/-- The non-recursive part of a task definition object: `id`, `name`,
`description`, the options schema (option name to optional default), and
the `setup`/`teardown` hooks.  A setup hook receives the options object and
returns its error signal together with the (possibly mutated) options; a
teardown hook returns its error signal. -/
structure TaskMeta where
  id : Option JStr
  name : Option JStr
  descr : Option JStr
  schema : List (JStr × Option JSVal)
  setup : Option (Scope → Option Err × Scope)
  teardown : Option (Scope → Option Err)

/-- A subtask's `task` property: a task definition object, a JavaScript
function value (its declared arity, its `name`, its behaviour when invoked
inline with `(parentOptions, context, next)`, and the definition object it
builds when invoked as a task builder), or a task-id / grunt-task-name
string. -/
inductive TaskRef where
  | obj (meta : TaskMeta) (tasks : List (SubMeta × TaskRef))
  | func (arity : Nat) (fname : Option JStr) (run : Scope → Option Err)
      (bmeta : TaskMeta) (btasks : List (SubMeta × TaskRef))
  | sid (s : JStr)

/-- Observable hook/strategy invocations of a run, each tagged with the
depth of the node that performed it. -/
inductive Ev where
  | setupEv (depth : Nat)
  | teardownEv (depth : Nat)
  | inlineEv (depth : Nat)
  | gruntEv (depth : Nat)
deriving DecidableEq, Repr

/-- `Automaton.prototype._isTaskEnabled`: the `on` modifier; a string is
interpolated against the parent options with `purge` and truthiness-checked,
a function is invoked with `(parentOptions, context)`, any other literal is
truthiness-checked; no declaration means enabled. -/
def isTaskEnabled (m : OnMod) (popts : Scope) : Bool :=
  match m with
  | .undeclared => true
  | .str s => truthy (replacePlaceholders s popts { purge := true, skipUnescape := false })
  | .fn f => f popts
  | .lit v => truthy v

/-- `Automaton.prototype._isTaskMuted`: same three-way evaluation as `on`,
but no declaration means not muted. -/
def isTaskMuted (m : OnMod) (popts : Scope) : Bool :=
  match m with
  | .undeclared => false
  | .str s => truthy (replacePlaceholders s popts { purge := true, skipUnescape := false })
  | .fn f => f popts
  | .lit v => truthy v

/-- `Automaton.prototype._isTaskFatal`: the `fatal` modifier (its function
form receives the error first); no declaration means fatal. -/
def isTaskFatal (m : FatalMod) (popts : Scope) (e : Err) : Bool :=
  match m with
  | .undeclared => true
  | .str s => truthy (replacePlaceholders s popts { purge := true, skipUnescape := false })
  | .fn f => f e popts
  | .lit v => truthy v

/-- JavaScript `a || b` over two possibly-undefined, possibly-empty strings,
as used for `def.task.description || def.task.name`. -/
def jsOrStr (a b : Option JStr) : DescV :=
  match a with
  | some s =>
    if renderParts s = "" then
      match b with
      | some t => .vstr t
      | none => .vabsent
    else .vstr s
  | none =>
    match b with
    | some t => .vstr t
    | none => .vabsent

/-- JavaScript `x || y || 'unknown'` over optional strings, as used for the
silently-failed task name in `_onAfterTask`. -/
def firstTruthy (l : List (Option JStr)) (dflt : String) : String :=
  match l with
  | [] => dflt
  | some s :: rest => if renderParts s = "" then firstTruthy rest dflt else renderParts s
  | none :: rest => firstTruthy rest dflt

/-- `Automaton.prototype._onBeforeTask`: resolve the description (an inline
function or delegated step with an empty description is not reported, a
named task with an empty description reports `??`, an explicit `null`
suppresses the report), set the logger depth, report the task, and mute the
logger when the task asks for it and the logger is not already muted —
returning whether this node now owns the mute (`def.mutedLogger`). -/
def onBeforeTask (inline : Bool) (tdescr tname : Option JStr) (sdescr : DescV)
    (popts : Scope) (depth : Nat) (muteM : OnMod) (ls : LogState) :
    LogState × Bool :=
  let d0 := match sdescr with
    | .vabsent => jsOrStr tdescr tname
    | d => d
  let d1 := match d0 with
    | .vfn f => DescV.vstr (f popts)
    | d => d
  let d2 := match d1 with
    | .vnull => DescV.vnull
    | .vfn f => DescV.vstr (f popts)
    | .vabsent => if inline then DescV.vnull else DescV.vstr [SPart.lit ("??")]
    | .vstr s =>
      if renderParts s = "" then
        (if inline then DescV.vnull else DescV.vstr [SPart.lit ("??")])
      else DescV.vstr s
  let ls1 := Logger.setDepth ls (Int.ofNat depth)
  let ls2 := match d2 with
    | .vstr s =>
      Logger.infoln ls1 ["> " ++
        render (replacePlaceholders s popts { purge := true, skipUnescape := false })]
    | _ => ls1
  if !ls2.muted && isTaskMuted muteM popts then (Logger.mute ls2, true)
  else (ls2, false)

/-- `Automaton.prototype._onAfterTask`: a non-fatal error is logged at debug
level (naming `def.task.id || def.task.name || 'unknown'`) and replaced with
null; then, if this node owns the mute (`def.mutedLogger`), the logger is
unmuted. -/
def onAfterTask (tid tname : Option JStr) (fatalM : FatalMod) (popts : Scope)
    (owns : Bool) (err : Option Err) (ls : LogState) : Option Err × LogState :=
  let r : Option Err × LogState :=
    match err with
    | some e =>
      if !(isTaskFatal fatalM popts e) then
        (none, Logger.debugln ls
          ["Task \x22" ++ firstTruthy [tid, tname] ("unknown") ++
            "\x22 silently failed: " ++ e.msg])
      else (some e, ls)
    | none => (none, ls)
  if owns then (r.1, Logger.unmute r.2) else r

/-- JavaScript `e1 || e2` over error objects (an `Error` is always truthy). -/
def jsOrErr (a b : Option Err) : Option Err :=
  match a with
  | some e => some e
  | none => b

/-- The `posTaskFunc` of `_batchTask`: pass the pending error through
`_onAfterTask`; run `teardown` if present, pass its error through
`_onAfterTask` as well (the mute flag was already consumed by the first
call), and continue with `err || teardownErr`. -/
def posTask (teardown : Option (Scope → Option Err)) (tid tname : Option JStr)
    (fatalM : FatalMod) (popts opts : Scope) (owns : Bool) (depth : Nat)
    (err : Option Err) (ls : LogState) : Option Err × LogState × List Ev :=
  let r1 := onAfterTask tid tname fatalM popts owns err ls
  match teardown with
  | some g =>
    let te := g opts
    let r2 := onAfterTask tid tname fatalM popts false te r1.2
    (jsOrErr r1.1 r2.1, r2.2, [Ev.teardownEv depth])
  | none => (r1.1, r1.2, [])

/-- Option-default filling of `_batchTask` (lines 238-242): every schema
option that the provided options leave `undefined` and whose schema entry
declares a default receives that default. -/
def fillDefaults (schema : List (JStr × Option JSVal)) (opts : Scope) : Scope :=
  schema.foldl
    (fun o p =>
      match lookupScope o p.1, p.2 with
      | none, some d => setKey o p.1 d
      | _, _ => o)
    opts

/-- The message of the missing-option error of `_validateTaskOptions`. -/
def missingOptionMsg (optName : String) (taskId : String) : String :=
  "Missing option \x27" ++ optName ++ "\x27 in \x27" ++ taskId ++ "\x27 task"

/-- JavaScript stringification of `task.id` inside the missing-option
message (an inline task without id concatenates as `undefined`). -/
def taskIdStr (meta : TaskMeta) : String :=
  match meta.id with
  | some s => renderParts s
  | none => "undefined"

/-- `Automaton.prototype._validateTaskOptions`: the first schema option
that the options leave `undefined` produces the missing-option error. -/
def validateTaskOptions (meta : TaskMeta) (opts : Scope) : Option Err :=
  match meta.schema.find? (fun p => (lookupScope opts p.1).isNone) with
  | some p => some ⟨missingOptionMsg (renderParts p.1) (taskIdStr meta)⟩
  | none => none

/-- The sentinel produced when the modelling fuel runs out (real runs of
finite trees correspond to any sufficiently large fuel). -/
def fuelErr : Err := ⟨"model: recursion fuel exhausted"⟩

/-- The `_assertTaskLoaded` assertion message for an unknown task id (the
source throws it while compiling the batch; the registry is modelled
empty). -/
def notFoundErr (s : JStr) : Err :=
  ⟨"Could not find any task handler suitable for \x27" ++ renderParts s ++ "\x27"⟩

/-- The three step strategies a subtask entry can compile to. -/
inductive StepKind where
  | gruntK
  | inlineK
  | nestedK
deriving DecidableEq, Repr

/-- The subtask classification of `_batchTask` (lines 283-292): a truthy
`grunt` marker selects the external-runner step; otherwise a function task
whose declared arity is not 1 selects the inline-function step; everything
else is compiled as a nested task. -/
def classifySubtask (sm : SubMeta) (ref : TaskRef) : StepKind :=
  if sm.grunt.isSome then .gruntK
  else
    match ref with
    | .func ar _ _ _ _ => if ar ≠ 1 then .inlineK else .nestedK
    | _ => .nestedK

/-- The classification as the spec's sentence states it, for comparison with
`classifySubtask`: a delegation marker selects the external-runner step, a
plain callback with exactly the two-argument shape (not three) selects the
inline-function step, and every other entry is compiled as a nested task. -/
def classifySpecTwoArg (sm : SubMeta) (ref : TaskRef) : StepKind :=
  if sm.grunt.isSome then .gruntK
  else
    match ref with
    | .func ar _ _ _ _ => if ar = 2 then .inlineK else .nestedK
    | _ => .nestedK

/-- The `description` property of a task reference (only definition objects
carry one). -/
def refDescr : TaskRef → Option JStr
  | .obj meta _ => meta.descr
  | _ => none

/-- The `name` property of a task reference (a function value exposes its
JavaScript function name; strings have none). -/
def refName : TaskRef → Option JStr
  | .obj meta _ => meta.name
  | .func _ fname _ _ _ => fname
  | .sid _ => none

/-- The `id` property of a task reference. -/
def refId : TaskRef → Option JStr
  | .obj meta _ => meta.id
  | _ => none

/-- `Automaton.prototype._batchFunctionTask`: substitute the (unused copy
of the) declared options, skip when disabled, report, invoke the callback
with the parent's options, and pass its error through `_onAfterTask`. -/
def runFnStep (sm : SubMeta) (fname : Option JStr) (run : Scope → Option Err)
    (popts : Scope) (depth : Nat) (ls : LogState) :
    Option Err × LogState × List Ev :=
  let _opts1 := objReplace sm.options popts { purge := false, skipUnescape := false }
  if !(isTaskEnabled sm.onM popts) then (none, ls, [])
  else
    let b := onBeforeTask true none fname sm.descr popts depth sm.muteM ls
    let e := run popts
    let r := onAfterTask none fname sm.fatalM popts b.2 e b.1
    (r.1, r.2, [Ev.inlineEv depth])

/-- `Automaton.prototype._batchGruntTask`: substitute options, skip when
disabled, report, run the external runner relaying its output through
`log.write`; an `error` signal passes through `_onAfterTask`, while an
`end` signal calls the continuation directly — WITHOUT `_onAfterTask`, so
a mute owned by this node is never released on success (see C6). -/
def runGruntStep (sm : SubMeta) (ref : TaskRef) (popts : Scope) (depth : Nat)
    (ls : LogState) : Option Err × LogState × List Ev :=
  match sm.grunt with
  | none => (none, ls, [])
  | some g =>
    let _opts1 := objReplace sm.options popts { purge := false, skipUnescape := false }
    if !(isTaskEnabled sm.onM popts) then (none, ls, [])
    else
      let b := onBeforeTask true (refDescr ref) (refName ref) sm.descr popts depth sm.muteM ls
      let ls2 := g.output.foldl (fun acc c => Logger.write acc [c]) b.1
      match g.result with
      | some e =>
        let r := onAfterTask (refId ref) (refName ref) sm.fatalM popts b.2 (some e) ls2
        (r.1, r.2, [Ev.gruntEv depth])
      | none => (none, ls2, [Ev.gruntEv depth])

/-- The object `def.parentOptions` refers to: for the root node it aliases
the node's own (current) options object, otherwise it is the parent's
options object. -/
def replValues (aliased : Bool) (own popts : Scope) : Scope :=
  if aliased then own else popts

/-- The part of `preTaskFunc` that follows the report: run `setup` if
present (a setup error short-circuits), then re-substitute the options
(this time unescaping) and validate them; when that pipeline produced no
error, run the subtask sequence.  Returns the pending error, the node's
final options object, the logger state and the events. -/
def preTask (runSubsF : Scope → List (SubMeta × TaskRef) → LogState →
      Option Err × LogState × List Ev)
    (meta : TaskMeta) (tasks : List (SubMeta × TaskRef)) (opts1 popts : Scope)
    (aliased : Bool) (depth : Nat) (ls1 : LogState) :
    Option Err × Scope × LogState × List Ev :=
  match meta.setup with
  | some stp =>
    let r := stp opts1
    match r.1 with
    | some e => (some e, r.2, ls1, [Ev.setupEv depth])
    | none =>
      let opts3 := objReplace r.2 (replValues aliased r.2 popts)
        { purge := false, skipUnescape := false }
      match validateTaskOptions meta opts3 with
      | some ve => (some ve, opts3, ls1, [Ev.setupEv depth])
      | none =>
        let s := runSubsF opts3 tasks ls1
        (s.1, opts3, s.2.1, Ev.setupEv depth :: s.2.2)
  | none =>
    let opts3 := objReplace opts1 (replValues aliased opts1 popts)
      { purge := false, skipUnescape := false }
    match validateTaskOptions meta opts3 with
    | some ve => (some ve, opts3, ls1, [])
    | none =>
      let s := runSubsF opts3 tasks ls1
      (s.1, opts3, s.2.1, s.2.2)

/-- The tail of a nested-task step: run `posTaskFunc` on the pending error
and prepend the events accumulated so far. -/
def finishPos (teardown : Option (Scope → Option Err)) (tid tname : Option JStr)
    (fatalM : FatalMod) (popts opts : Scope) (owns : Bool) (depth : Nat)
    (err : Option Err) (ls : LogState) (evs : List Ev) :
    Option Err × LogState × List Ev :=
  let r := posTask teardown tid tname fatalM popts opts owns depth err ls
  (r.1, r.2.1, evs ++ r.2.2)

mutual

/-- `Automaton.prototype._batchTask`, executed: fill option defaults,
substitute the options in skip-unescape mode (for the root node
`parentOptions` aliases the options object itself — `aliased`), skip the
whole node when `on` evaluates falsy (the post-task phase does not run),
otherwise report (`_onBeforeTask`), run the pre-task pipeline and the
subtask sequence, and finish with `posTaskFunc`. -/
def runNode (fuel : Nat) (meta : TaskMeta) (tasks : List (SubMeta × TaskRef))
    (opts popts : Scope) (aliased : Bool) (depth : Nat) (sm : SubMeta)
    (ls : LogState) : Option Err × LogState × List Ev :=
  match fuel with
  | 0 => (some fuelErr, ls, [])
  | f + 1 =>
    let opts0 := fillDefaults meta.schema opts
    let opts1 := objReplace opts0 (replValues aliased opts0 popts)
      { purge := false, skipUnescape := true }
    let pv1 := replValues aliased opts1 popts
    if !(isTaskEnabled sm.onM pv1) then (none, ls, [])
    else
      let b := onBeforeTask false meta.descr meta.name sm.descr pv1 depth sm.muteM ls
      let p := preTask (fun o ts l => runSubs f o depth ts l) meta tasks opts1 popts
        aliased depth b.1
      finishPos meta.teardown meta.id meta.name sm.fatalM
        (replValues aliased p.2.1 popts) p.2.1 b.2 depth p.1 p.2.2.1 p.2.2.2

/-- `async.series` over the subtask steps: strictly sequential, aborting on
the first error. -/
def runSubs (fuel : Nat) (popts : Scope) (depth : Nat)
    (subs : List (SubMeta × TaskRef)) (ls : LogState) :
    Option Err × LogState × List Ev :=
  match fuel with
  | 0 => (some fuelErr, ls, [])
  | f + 1 =>
    match subs with
    | [] => (none, ls, [])
    | s :: rest =>
      let r1 := runSub f popts depth s ls
      match r1.1 with
      | some e => (some e, r1.2.1, r1.2.2)
      | none =>
        let r2 := runSubs f popts depth rest r1.2.1
        (r2.1, r2.2.1, r1.2.2 ++ r2.2.2)

/-- One subtask entry: build its runtime node (`_createTaskDefinition`
clones the declared options and sets depth to the parent's plus one) and
dispatch on `classifySubtask`; a nested function task goes through the
builder (`getTaskDefinition`) to its built definition object. -/
def runSub (fuel : Nat) (popts : Scope) (depth : Nat) (s : SubMeta × TaskRef)
    (ls : LogState) : Option Err × LogState × List Ev :=
  match fuel with
  | 0 => (some fuelErr, ls, [])
  | f + 1 =>
    match classifySubtask s.1 s.2 with
    | .gruntK => runGruntStep s.1 s.2 popts (depth + 1) ls
    | .inlineK =>
      match s.2 with
      | .func _ fname run _ _ => runFnStep s.1 fname run popts (depth + 1) ls
      | _ => (none, ls, [])
    | .nestedK =>
      match s.2 with
      | .obj meta tasks =>
        runNode f meta tasks s.1.options popts false (depth + 1) s.1 ls
      | .func _ _ _ bmeta btasks =>
        runNode f bmeta btasks s.1.options popts false (depth + 1) s.1 ls
      | .sid sname => (some (notFoundErr sname), ls, [])

end

/-- The root node has no subtask-spec modifiers: `run` builds its definition
from `{task, options, context}` only. -/
def rootMeta (options : Scope) : SubMeta :=
  { options := options, grunt := none, onM := .undeclared, muteM := .undeclared,
    fatalM := .undeclared, descr := .vabsent }

/-- `Automaton.prototype.run`, up to the completion handler: resolve the
root reference (a function goes through the builder) and run it with
depth 1 and `parentOptions` aliasing its own options object. -/
def runRoot (fuel : Nat) (tr : TaskRef) (options : Scope) (ls : LogState) :
    Option Err × LogState × List Ev :=
  match tr with
  | .obj meta tasks => runNode fuel meta tasks options options true 1 (rootMeta options) ls
  | .func _ _ _ bmeta btasks =>
    runNode fuel bmeta btasks options options true 1 (rootMeta options) ls
  | .sid s => (some (notFoundErr s), ls, [])

/-- The completion handler of `run`: an error is reported on the stream via
`errorln` and passed to the callback with colours stripped from its
message. -/
def runAutomaton (fuel : Nat) (tr : TaskRef) (options : Scope) (ls : LogState) :
    Option Err × LogState :=
  let r := runRoot fuel tr options ls
  match r.1 with
  | some e => (some ⟨Logger.removeColors e.msg⟩, Logger.errorln r.2.1 [e.msg])
  | none => (none, r.2.1)

/-! ## `_createTaskDefinition` (lines 404-418) -/

/-- A runtime task node as built by `_createTaskDefinition`: the cloned
options, the parent-options reference, and the depth.  `aliased` makes the
source's root-node aliasing (`def.parentOptions = def.options`, the same
heap object) explicit: substitution performed on an aliased node's options
is visible through `parentOptions`. -/
structure TaskNode where
  options : Scope
  parentOptions : Scope
  aliased : Bool
  depth : Nat
deriving DecidableEq, Repr

/-- `Automaton.prototype._createTaskDefinition`: clone the declared options;
with a parent, reference the parent's options and add one to its depth;
at the root, alias `parentOptions` to the node's own options and start at
depth 1. -/
def createTaskDefinition (declaredOptions : Scope) (parent : Option TaskNode) :
    TaskNode :=
  match parent with
  | some p =>
    { options := declaredOptions, parentOptions := p.options,
      aliased := false, depth := 1 + p.depth }
  | none =>
    { options := declaredOptions, parentOptions := declaredOptions,
      aliased := true, depth := 1 }

/-- The pre-task option substitution
(`this._replaceOptions(def.options, def.parentOptions, ...)`) acting on a
task node: the options object is rewritten in place, so an aliased
`parentOptions` (the root node) sees the rewrite. -/
def preSubstitute (n : TaskNode) (io : InterpOpts) : TaskNode :=
  let o := objReplace n.options n.parentOptions io
  { options := o,
    parentOptions := if n.aliased then o else n.parentOptions,
    aliased := n.aliased, depth := n.depth }

/-- A string containing no placeholders (and no escaped placeholder
markers): every part is literal text. -/
def holeFree (s : JStr) : Bool :=
  s.all fun p =>
    match p with
    | .lit _ => true
    | _ => false

/-! ## Concrete fixtures used by witnesses and counterexamples -/

/-- A fresh logger with the default options. -/
def freshLog : LogState := Logger.init (-1) false true

/-- A task definition object with no id, hooks, schema or description. -/
def emptyMeta : TaskMeta :=
  { id := none, name := none, descr := none, schema := [],
    setup := none, teardown := none }

/-- A subtask spec declaring no options and no modifiers. -/
def defaultSub : SubMeta :=
  { options := [], grunt := none, onM := .undeclared, muteM := .undeclared,
    fatalM := .undeclared, descr := .vabsent }

/-- A subtask spec with `on: false`. -/
def disabledSub : SubMeta :=
  { defaultSub with onM := .lit (JSVal.bool false) }

/-- A subtask spec with a non-fatal literal `fatal: false`. -/
def nonFatalSub : SubMeta :=
  { defaultSub with fatalM := .lit (JSVal.bool false) }

/-- A task whose setup hook fails. -/
def failingSetupMeta : TaskMeta :=
  { emptyMeta with setup := some (fun o => (some ⟨"setup boom"⟩, o)) }

/-- A task whose setup hook fails but that declares a teardown hook. -/
def failingSetupTeardownMeta : TaskMeta :=
  { emptyMeta with
    setup := some (fun o => (some ⟨"setup boom"⟩, o)),
    teardown := some (fun _ => none) }

/-- The `build` task of the spec's scenario: one required `target` option
with no default, a clean setup, no teardown. -/
def buildMeta : TaskMeta :=
  { emptyMeta with
    id := some [SPart.lit ("build")],
    schema := [([SPart.lit ("target")], none)],
    setup := some (fun o => (none, o)) }

/-- A task whose only required option is supplied by its setup hook. -/
def setupSuppliesMeta : TaskMeta :=
  { emptyMeta with
    id := some [SPart.lit ("t")],
    schema := [([SPart.lit ("x")], none)],
    setup := some (fun o => (none, setKey o [SPart.lit ("x")] (JSVal.num 1))) }

/-- A muted delegated (grunt) subtask whose runner completes successfully. -/
def mutedGruntSub : SubMeta :=
  { defaultSub with
    grunt := some { output := [], result := none },
    muteM := .lit (JSVal.bool true) }

/-- A muted inline subtask (for contrast with the grunt step). -/
def mutedInlineSub : SubMeta :=
  { defaultSub with muteM := .lit (JSVal.bool true) }

/-- A three-argument function task entry (no delegation marker). -/
def threeArgFuncRef : TaskRef :=
  TaskRef.func 3 none (fun _ => none) emptyMeta []

/-- Root options for the root-aliasing counterexample: option `b` is a
placeholder referring to option `a`. -/
def aliasedRootOpts : Scope :=
  [([SPart.lit ("a")], JSVal.str [SPart.lit ("x")]),
   ([SPart.lit ("b")], JSVal.str [SPart.hole ("a")])]

/-! ## Helper lemmas -/

theorem onAfterTask_fst_none {tid tname : Option JStr} {fm : FatalMod} {pv : Scope}
    {owns : Bool} {err : Option Err} {ls : LogState}
    (H : ∀ e, isTaskFatal fm pv e = false) :
    (onAfterTask tid tname fm pv owns err ls).1 = none := by
  unfold onAfterTask
  cases err with
  | none => cases owns <;> simp
  | some e => cases owns <;> simp [H e]

theorem posTask_fst_none {td : Option (Scope → Option Err)} {tid tname : Option JStr}
    {fm : FatalMod} {pv opts : Scope} {owns : Bool} {depth : Nat}
    {err : Option Err} {ls : LogState}
    (H : ∀ e, isTaskFatal fm pv e = false) :
    (posTask td tid tname fm pv opts owns depth err ls).1 = none := by
  unfold posTask
  cases td with
  | none => exact onAfterTask_fst_none H
  | some g =>
    simp only
    rw [onAfterTask_fst_none H, onAfterTask_fst_none H]
    rfl

theorem posTask_snd_events (td : Option (Scope → Option Err)) (tid tname : Option JStr)
    (fm : FatalMod) (pv opts : Scope) (owns : Bool) (depth : Nat)
    (err : Option Err) (ls : LogState) :
    (posTask td tid tname fm pv opts owns depth err ls).2.2
      = if td.isSome then [Ev.teardownEv depth] else [] := by
  cases td <;> rfl

theorem runFnStep_no_teardown (sm : SubMeta) (fname : Option JStr)
    (run : Scope → Option Err) (popts : Scope) (depth : Nat) (ls : LogState)
    (k : Nat) : Ev.teardownEv k ∉ (runFnStep sm fname run popts depth ls).2.2 := by
  unfold runFnStep
  split <;> simp

theorem runGruntStep_no_teardown (sm : SubMeta) (ref : TaskRef) (popts : Scope)
    (depth : Nat) (ls : LogState) (k : Nat) :
    Ev.teardownEv k ∉ (runGruntStep sm ref popts depth ls).2.2 := by
  unfold runGruntStep
  split
  · simp
  · split
    · simp
    · split <;> simp

theorem preTask_teardown_bound {F : Scope → List (SubMeta × TaskRef) → LogState →
      Option Err × LogState × List Ev}
    {meta : TaskMeta} {tasks : List (SubMeta × TaskRef)} {opts1 popts : Scope}
    {aliased : Bool} {depth : Nat} {ls1 : LogState}
    (HF : ∀ o ts l k, Ev.teardownEv k ∈ (F o ts l).2.2 → depth < k) :
    ∀ k, Ev.teardownEv k ∈ (preTask F meta tasks opts1 popts aliased depth ls1).2.2.2 →
      depth < k := by
  intro k hk
  simp only [preTask] at hk
  split at hk
  · split at hk
    · simp at hk
    · split at hk
      · simp at hk
      · simp only [List.mem_cons] at hk
        rcases hk with hk | hk
        · cases hk
        · exact HF _ _ _ _ hk
  · split at hk
    · simp at hk
    · exact HF _ _ _ _ hk

theorem replValues_false (own popts : Scope) : replValues false own popts = popts := rfl

theorem replValues_true (own popts : Scope) : replValues true own popts = own := rfl

theorem onAfterTask_keeps {tid tname : Option JStr} {fm : FatalMod} {pv : Scope}
    {owns : Bool} {e : Err} {ls : LogState} (h : isTaskFatal fm pv e = true) :
    (onAfterTask tid tname fm pv owns (some e) ls).1 = some e := by
  cases owns <;> simp [onAfterTask, h]

theorem posTask_fst_pending {td : Option (Scope → Option Err)} {tid tname : Option JStr}
    {fm : FatalMod} {pv opts : Scope} {owns : Bool} {depth : Nat} {e1 : Err}
    {ls : LogState} (h : isTaskFatal fm pv e1 = true) :
    (posTask td tid tname fm pv opts owns depth (some e1) ls).1 = some e1 := by
  unfold posTask
  cases td with
  | none => exact onAfterTask_keeps h
  | some g =>
    simp only
    rw [onAfterTask_keeps h]
    rfl

theorem teardown_depth_bound (fuel : Nat) :
    (∀ meta tasks opts popts aliased depth sm ls k,
        Ev.teardownEv k ∈ (runNode fuel meta tasks opts popts aliased depth sm ls).2.2 →
          depth ≤ k)
    ∧ (∀ popts depth subs ls k,
        Ev.teardownEv k ∈ (runSubs fuel popts depth subs ls).2.2 → depth < k)
    ∧ (∀ popts depth s ls k,
        Ev.teardownEv k ∈ (runSub fuel popts depth s ls).2.2 → depth < k) := by
  induction fuel with
  | zero =>
    refine ⟨?_, ?_, ?_⟩ <;> intro _ _ _ _ _ <;> simp [runNode, runSubs, runSub]
  | succ f ih =>
    refine ⟨?_, ?_, ?_⟩
    · intro meta tasks opts popts aliased depth sm ls k hk
      simp only [runNode] at hk
      split at hk
      · simp at hk
      · simp only [finishPos, List.mem_append] at hk
        rcases hk with hk | hk
        · exact Nat.le_of_lt (preTask_teardown_bound
            (fun o ts l k hm => (ih.2.1) o depth ts l k hm) k hk)
        · rw [posTask_snd_events] at hk
          split at hk
          · simp only [List.mem_singleton] at hk
            cases hk
            exact Nat.le_refl _
          · simp at hk
    · intro popts depth subs ls k hk
      simp only [runSubs] at hk
      split at hk
      · simp at hk
      · split at hk
        · exact ih.2.2 _ _ _ _ _ hk
        · simp only [List.mem_append] at hk
          rcases hk with hk | hk
          · exact ih.2.2 _ _ _ _ _ hk
          · exact ih.2.1 _ _ _ _ _ hk
    · intro popts depth s ls k hk
      simp only [runSub] at hk
      split at hk
      · exact absurd hk (runGruntStep_no_teardown _ _ _ _ _ _)
      · split at hk
        · exact absurd hk (runFnStep_no_teardown _ _ _ _ _ _ _)
        · simp at hk
      · split at hk
        · have := ih.1 _ _ _ _ _ _ _ _ _ hk
          omega
        · have := ih.1 _ _ _ _ _ _ _ _ _ hk
          omega
        · simp at hk

theorem preTask_count_zero {F : Scope → List (SubMeta × TaskRef) → LogState →
      Option Err × LogState × List Ev}
    {meta : TaskMeta} {tasks : List (SubMeta × TaskRef)} {opts1 popts : Scope}
    {aliased : Bool} {depth : Nat} {ls1 : LogState}
    (HF : ∀ o ts l k, Ev.teardownEv k ∈ (F o ts l).2.2 → depth < k) :
    (preTask F meta tasks opts1 popts aliased depth ls1).2.2.2.count
      (Ev.teardownEv depth) = 0 :=
  List.count_eq_zero.mpr
    (fun hm => absurd (preTask_teardown_bound HF _ hm) (lt_irrefl _))

theorem flatMap_litOnly (f : SPart → List SPart)
    (hf : ∀ t, f (SPart.lit t) = [SPart.lit t]) :
    ∀ s : JStr, holeFree s = true → s.flatMap f = s := by
  intro s
  induction s with
  | nil => intro _; rfl
  | cons p rest ih =>
    intro h
    simp only [holeFree, List.all_cons, Bool.and_eq_true] at h
    cases p with
    | lit t =>
      simp only [List.flatMap_cons, hf, List.singleton_append]
      rw [ih h.2]
    | hole n => simp at h
    | esc n => simp at h

theorem checkLevel_eq (st : LogState) (dbg : Bool) :
    Logger.checkLevel st dbg
      = ((!dbg || st.debug) &&
          (st.verbosity == -1 || decide (st.depth ≤ st.verbosity))) := by
  unfold Logger.checkLevel
  cases dbg <;> cases h : st.debug <;> simp [h]

/-! ## Claim theorems -/

/-- C1.  For every node whose error is deemed non-fatal by the fatality
decision (and fatality defaults to true when no `fatal` modifier is
declared), the error is replaced with null after being logged at debug
level, so it never reaches the node's parent's subtask sequence and is
never passed to the run's callback: (a) an undeclared `fatal` modifier
decides fatal; (b) `_onAfterTask` turns a non-fatal error into null after a
`debugln` call naming the task; (c) a nested node whose decision is
non-fatal completes its step with no error; (d) a series whose first step
completed with no error continues with the remaining siblings; (e)/(f) the
inline-function and delegated steps likewise complete with no error; (g) a
run whose root batch yields no error passes no error to the callback. -/
theorem nonfatal_error_absorbed (fm : FatalMod) (tid tname : Option JStr)
    (H : ∀ (pv : Scope) (e : Err), isTaskFatal fm pv e = false) :
    (∀ (pv : Scope) (e : Err), isTaskFatal FatalMod.undeclared pv e = true)
    ∧ (∀ (pv : Scope) (owns : Bool) (e : Err) (ls : LogState),
        onAfterTask tid tname fm pv owns (some e) ls
          = (none,
             if owns then
               Logger.unmute (Logger.debugln ls
                 ["Task \x22" ++ firstTruthy [tid, tname] ("unknown") ++
                   "\x22 silently failed: " ++ e.msg])
             else Logger.debugln ls
               ["Task \x22" ++ firstTruthy [tid, tname] ("unknown") ++
                 "\x22 silently failed: " ++ e.msg]))
    ∧ (∀ (f : Nat) (meta : TaskMeta) (tasks : List (SubMeta × TaskRef))
        (opts popts : Scope) (aliased : Bool) (depth : Nat) (sm : SubMeta)
        (ls : LogState), sm.fatalM = fm →
        (runNode (f + 1) meta tasks opts popts aliased depth sm ls).1 = none)
    ∧ (∀ (f : Nat) (popts : Scope) (depth : Nat) (sub : SubMeta × TaskRef)
        (rest : List (SubMeta × TaskRef)) (ls : LogState),
        (runSub f popts depth sub ls).1 = none →
        (runSubs (f + 1) popts depth (sub :: rest) ls).1
          = (runSubs f popts depth rest (runSub f popts depth sub ls).2.1).1)
    ∧ (∀ (sm : SubMeta) (fname : Option JStr) (run : Scope → Option Err)
        (popts : Scope) (depth : Nat) (ls : LogState), sm.fatalM = fm →
        (runFnStep sm fname run popts depth ls).1 = none)
    ∧ (∀ (sm : SubMeta) (ref : TaskRef) (popts : Scope) (depth : Nat)
        (ls : LogState), sm.fatalM = fm →
        (runGruntStep sm ref popts depth ls).1 = none)
    ∧ (∀ (fuel : Nat) (tr : TaskRef) (options : Scope) (ls : LogState),
        (runRoot fuel tr options ls).1 = none →
        (runAutomaton fuel tr options ls).1 = none) := by
  refine ⟨fun _ _ => rfl, ?_, ?_, ?_, ?_, ?_, ?_⟩
  · intro pv owns e ls
    cases owns <;> simp [onAfterTask, H pv e]
  · intro f meta tasks opts popts aliased depth sm ls hsm
    simp only [runNode]
    split
    · rfl
    · simp only [finishPos]
      rw [hsm]
      exact posTask_fst_none (fun e => H _ e)
  · intro f popts depth sub rest ls h
    simp [runSubs, h]
  · intro sm fname run popts depth ls hsm
    unfold runFnStep
    split
    · rfl
    · rw [hsm]
      simp [onAfterTask_fst_none (H _)]
  · intro sm ref popts depth ls hsm
    unfold runGruntStep
    split
    · rfl
    · split
      · rfl
      · split
        · rw [hsm]
          simp [onAfterTask_fst_none (H _)]
        · rfl
  · intro fuel tr options ls h
    simp [runAutomaton, h]

/-- Witness for C1: a node with a failing setup hook and `fatal: false`
completes its step with no error. -/
theorem nonfatal_error_absorbed_witness :
    (runNode 1 failingSetupMeta [] [] [] false 1 nonFatalSub freshLog).1 = none :=
  (nonfatal_error_absorbed (FatalMod.lit (JSVal.bool false)) none none
      (fun _ _ => rfl)).2.2.1 0 failingSetupMeta [] [] [] false 1 nonFatalSub
    freshLog rfl

/-- Counterexample for C2: when both a pending error and a teardown error
survive the fatality decision, the error passed on is the PENDING error
(`err || teardownErr`), not the teardown error as the claim states. -/
theorem teardown_precedence_counterexample :
    (posTask (some (fun _ => some ⟨"teardown failed"⟩)) none none
        FatalMod.undeclared [] [] false 1 (some ⟨"pending failed"⟩) freshLog).1
      = some ⟨"pending failed"⟩
    ∧ Err.mk ("pending failed") ≠ Err.mk ("teardown failed") :=
  ⟨rfl, by decide⟩

/-- C2 (amended).  In the post-task phase, when a pending (subtask/setup)
error survives its fatality decision, the error passed to the node's `done`
continuation is that pending error — the teardown error (after its own
fatality decision) is passed only when no pending error remains. -/
theorem pending_error_precedence (g : Scope → Option Err) (tid tname : Option JStr)
    (fm : FatalMod) (pv opts : Scope) (owns : Bool) (depth : Nat) (e1 : Err)
    (ls : LogState) (h1 : isTaskFatal fm pv e1 = true) :
    (posTask (some g) tid tname fm pv opts owns depth (some e1) ls).1 = some e1 :=
  posTask_fst_pending h1

/-- Witness for C2 (amended): a concrete pending error wins over a concrete
teardown error. -/
theorem pending_error_precedence_witness :
    (posTask (some (fun _ => some ⟨"t"⟩)) none none FatalMod.undeclared
        [] [] false 1 (some ⟨"p"⟩) freshLog).1 = some ⟨"p"⟩ :=
  pending_error_precedence (fun _ => some ⟨"t"⟩) none none FatalMod.undeclared
    [] [] false 1 ⟨"p"⟩ freshLog rfl

/-- Counterexample for C3: a plain callback declaring THREE arguments (not
two) — the compiler classifies it as an inline-function step, while the
claim's classification (inline only for the exact two-argument shape) makes
it a nested-task step. -/
theorem classify_two_arg_counterexample :
    classifySubtask defaultSub threeArgFuncRef = StepKind.inlineK
    ∧ classifySpecTwoArg defaultSub threeArgFuncRef = StepKind.nestedK :=
  ⟨rfl, rfl⟩

/-- C3 (amended).  For every entry of a definition's `tasks` list: an entry
with a delegation (`grunt`) marker becomes an external-runner step; an
entry that is a plain callback function whose declared arity is NOT ONE
(one-argument functions are task builders) becomes an inline-function
step; every other entry is recursively compiled as a nested-task step. -/
theorem classify_subtask_trichotomy :
    ∀ (sm : SubMeta) (ref : TaskRef),
      (classifySubtask sm ref = StepKind.gruntK ↔ sm.grunt.isSome = true)
      ∧ (classifySubtask sm ref = StepKind.inlineK ↔
          (sm.grunt.isSome = false ∧
            ∃ ar fname run bmeta btasks,
              ref = TaskRef.func ar fname run bmeta btasks ∧ ar ≠ 1))
      ∧ (classifySubtask sm ref = StepKind.nestedK ↔
          (sm.grunt.isSome = false ∧
            ∀ ar fname run bmeta btasks,
              ref = TaskRef.func ar fname run bmeta btasks → ar = 1)) := by
  intro sm ref
  cases hg : sm.grunt.isSome with
  | true =>
    refine ⟨by simp [classifySubtask, hg], ?_, ?_⟩ <;>
      simp [classifySubtask, hg]
  | false =>
    cases ref with
    | obj meta tasks =>
      refine ⟨?_, ?_, ?_⟩ <;> simp [classifySubtask, hg]
    | sid s =>
      refine ⟨?_, ?_, ?_⟩ <;> simp [classifySubtask, hg]
    | func ar fname run bmeta btasks =>
      by_cases h1 : ar = 1
      · subst h1
        refine ⟨?_, ?_, ?_⟩ <;> simp [classifySubtask, hg] <;> (intros; omega)
      · refine ⟨?_, ?_, ?_⟩ <;> simp [classifySubtask, hg, h1]

/-- C4.  For every node whose `on` modifier evaluates falsy, the node's
setup and teardown hooks are never invoked (no events), no log lines are
emitted for that node or its subtasks (the logger state is untouched), the
node's `done` continuation is invoked with no error, and the post-task
phase does not run. -/
theorem disabled_node_skipped (f : Nat) (meta : TaskMeta)
    (tasks : List (SubMeta × TaskRef)) (opts popts : Scope) (depth : Nat)
    (sm : SubMeta) (ls : LogState)
    (hdis : isTaskEnabled sm.onM popts = false) :
    runNode (f + 1) meta tasks opts popts false depth sm ls = (none, ls, []) := by
  simp only [runNode, replValues_false]
  rw [hdis]
  simp

/-- Witness for C4: a node with `on: false` is skipped entirely. -/
theorem disabled_node_skipped_witness :
    runNode 1 failingSetupTeardownMeta [] [] [] false 1 disabledSub freshLog
      = (none, freshLog, []) :=
  disabled_node_skipped 0 failingSetupTeardownMeta [] [] [] 1 disabledSub
    freshLog rfl

/-- C5.  For every invocation of a node whose `on` modifier evaluated truthy
(the enabled determination was reached), the node's teardown hook runs
exactly once — including when the setup hook errored, option validation
failed, or any subtask signaled an error (the count is established
uniformly over all those paths). -/
theorem teardown_runs_exactly_once (f : Nat) (meta : TaskMeta)
    (tasks : List (SubMeta × TaskRef)) (opts popts : Scope) (depth : Nat)
    (sm : SubMeta) (ls : LogState) (g : Scope → Option Err)
    (hen : isTaskEnabled sm.onM popts = true)
    (htd : meta.teardown = some g) :
    ((runNode (f + 1) meta tasks opts popts false depth sm ls).2.2).count
      (Ev.teardownEv depth) = 1 := by
  simp only [runNode, replValues_false]
  rw [hen]
  simp only [Bool.not_true, Bool.false_eq_true, if_false]
  simp only [finishPos, List.count_append]
  rw [posTask_snd_events, htd]
  simp only [Option.isSome_some, if_true]
  rw [preTask_count_zero
    (fun o ts l k hm => (teardown_depth_bound f).2.1 o depth ts l k hm)]
  simp

/-- Witness for C5: a node whose setup fails still runs its teardown
exactly once. -/
theorem teardown_runs_exactly_once_witness :
    ((runNode 1 failingSetupTeardownMeta [] [] [] false 1 defaultSub
        freshLog).2.2).count (Ev.teardownEv 1) = 1 :=
  teardown_runs_exactly_once 0 failingSetupTeardownMeta [] [] [] 1 defaultSub
    freshLog (fun _ => none) rfl rfl

/-- Evaluation for C6 (code bug): a delegated (grunt) node that mutes the
logger and whose runner completes successfully (`end` without `error`)
leaves the logger muted — its `end` handler calls the continuation without
`_onAfterTask`, so the mute this node owns is never released; by contrast an
inline step with the same `mute` releases it. -/
theorem grunt_mute_leak_eval :
    freshLog.muted = false
    ∧ ((runSub 1 [] 1 (mutedGruntSub, TaskRef.sid [SPart.lit ("g")])
        freshLog).2.1).muted = true
    ∧ (runSub 1 [] 1 (mutedGruntSub, TaskRef.sid [SPart.lit ("g")])
        freshLog).1 = none
    ∧ ((runFnStep mutedInlineSub none (fun _ => none) [] 2 freshLog).2.1).muted
        = false :=
  ⟨rfl, rfl, rfl, rfl⟩

/-- Counterexample for C7: a task whose schema declares `x` with no default
and whose caller supplies no `x` — yet the step produces NO error, because
the setup hook supplies the option before validation runs. -/
theorem missing_option_setup_supplies_counterexample :
    setupSuppliesMeta.schema = [([SPart.lit ("x")], none)]
    ∧ lookupScope [] [SPart.lit ("x")] = none
    ∧ (runNode 2 setupSuppliesMeta [] [] [] false 1 defaultSub freshLog).1
        = none :=
  ⟨rfl, rfl, rfl⟩

/-- C7 (amended).  For every enabled task (with default fatality) whose
options schema declares an option with no default, if neither the
caller-supplied options, nor any default, nor the setup hook, nor
placeholder substitution provides a value for it (the post-setup
re-substituted options leave some schema option undefined), then after the
setup hook completes without error the node's step produces an error of the
missing-option kind whose message mentions the (first such) option name and
the task id. -/
theorem missing_option_error_after_setup (f : Nat) (meta : TaskMeta)
    (tasks : List (SubMeta × TaskRef)) (opts popts : Scope) (depth : Nat)
    (sm : SubMeta) (ls : LogState) (stp : Scope → Option Err × Scope)
    (nm : JStr) (dflt : Option JSVal)
    (hen : isTaskEnabled sm.onM popts = true)
    (hfat : sm.fatalM = FatalMod.undeclared)
    (hsetup : meta.setup = some stp)
    (hse : (stp (objReplace (fillDefaults meta.schema opts) popts
        { purge := false, skipUnescape := true })).1 = none)
    (hmiss : meta.schema.find? (fun p => (lookupScope
        (objReplace (stp (objReplace (fillDefaults meta.schema opts) popts
            { purge := false, skipUnescape := true })).2 popts
          { purge := false, skipUnescape := false }) p.1).isNone)
      = some (nm, dflt)) :
    (runNode (f + 1) meta tasks opts popts false depth sm ls).1
      = some ⟨missingOptionMsg (renderParts nm) (taskIdStr meta)⟩ := by
  simp only [runNode, replValues_false]
  rw [hen]
  simp only [Bool.not_true, Bool.false_eq_true, if_false]
  simp only [finishPos, preTask, replValues_false, hsetup, hse,
    validateTaskOptions, hmiss]
  rw [hfat]
  exact posTask_fst_pending rfl

/-- Witness for C7: the spec's scenario — running `build` with `{}` (target
omitted, no default) yields the missing-option error mentioning `target`
and `build`. -/
theorem missing_option_error_after_setup_witness :
    (runNode 1 buildMeta [] [] [] false 1 defaultSub freshLog).1
      = some ⟨missingOptionMsg ("target") ("build")⟩ :=
  missing_option_error_after_setup 0 buildMeta [] [] [] 1 defaultSub freshLog
    (fun o => (none, o)) [SPart.lit ("target")] none rfl rfl rfl rfl rfl

/-- C8.  For every task tree, the root node's `depth` is 1 and every child
node's `depth` equals its parent's `depth` plus 1, so depth is strictly
increasing along every path and never resets. -/
theorem depth_root_and_child :
    (∀ declared : Scope, (createTaskDefinition declared none).depth = 1)
    ∧ (∀ (declared : Scope) (p : TaskNode),
        (createTaskDefinition declared (some p)).depth = p.depth + 1)
    ∧ (∀ (declared : Scope) (p : TaskNode),
        p.depth < (createTaskDefinition declared (some p)).depth) := by
  refine ⟨fun _ => rfl, fun _ p => ?_, fun _ p => ?_⟩ <;>
    simp [createTaskDefinition] <;> omega

/-- Counterexample for C9: at the ROOT node, `parentOptions` aliases the
node's own options object, so the pre-task placeholder substitution DOES
mutate the object `parentOptions` refers to. -/
theorem root_parent_options_mutation_counterexample :
    (preSubstitute (createTaskDefinition aliasedRootOpts none)
        { purge := false, skipUnescape := true }).parentOptions
      ≠ (createTaskDefinition aliasedRootOpts none).parentOptions := by
  decide

/-- C9 (amended).  For every NON-ROOT node, placeholder substitution
performed on the node's options never mutates the node's `parentOptions`
object (and every node created with a parent is such a node); and
substitution of a string containing no placeholders returns that string
unchanged.  At the root, `parentOptions` aliases the node's own options
object and is mutated whenever substitution changes anything. -/
theorem substitution_frame_properties :
    (∀ (n : TaskNode) (io : InterpOpts), n.aliased = false →
        (preSubstitute n io).parentOptions = n.parentOptions)
    ∧ (∀ (s : JStr) (scope : Scope) (io : InterpOpts), holeFree s = true →
        castInter s scope io = JSVal.str s)
    ∧ (∀ (declared : Scope) (p : TaskNode),
        (createTaskDefinition declared (some p)).aliased = false) := by
  refine ⟨?_, ?_, fun _ _ => rfl⟩
  · intro n io h
    simp [preSubstitute, h]
  · intro s scope io h
    unfold castInter
    split
    · simp [holeFree] at h
    · exact congrArg JSVal.str (flatMap_litOnly _ (fun t => rfl) s h)

/-- Witness for C9 (amended): a child node's substitution leaves its
parent options untouched, and a placeholder-free string is unchanged. -/
theorem substitution_frame_properties_witness :
    (preSubstitute (createTaskDefinition [] (some (createTaskDefinition [] none)))
        { purge := false, skipUnescape := true }).parentOptions
      = (createTaskDefinition [] (some (createTaskDefinition [] none))).parentOptions
    ∧ castInter [SPart.lit ("plain")] [] { purge := false, skipUnescape := true }
      = JSVal.str [SPart.lit ("plain")] :=
  ⟨substitution_frame_properties.1 _ _ rfl,
   substitution_frame_properties.2.1 _ _ _ rfl⟩

/-- C10.  For every leveled write on the Logger, a chunk is emitted on the
output stream if and only if the logger is not muted, and (for debug writes
only) the debug option is true, and either the verbosity option is -1 or
the current depth is at most the verbosity; when any of these conditions
fails the write emits nothing and the logger (including its stream) is
unchanged.  The leveled operations (`write`/`info`/`warn`/`error`/
`success`/`debug` and their line variants) all reduce to `_log`/`_logln`
with the corresponding type tag and debug flag. -/
theorem logger_emission_condition (st : LogState) (data : String)
    (ty : Option String) (dbg : Bool) :
    ((Logger.log st data ty dbg).out.length
        = st.out.length +
          (if (!st.muted && ((!dbg || st.debug) &&
              (st.verbosity == -1 || decide (st.depth ≤ st.verbosity)))) = true
           then 1 else 0))
    ∧ ((!st.muted && ((!dbg || st.debug) &&
          (st.verbosity == -1 || decide (st.depth ≤ st.verbosity)))) = false →
        Logger.log st data ty dbg = st)
    ∧ ((Logger.logln st data ty dbg).out.length
        = st.out.length +
          (if (!st.muted && ((!dbg || st.debug) &&
              (st.verbosity == -1 || decide (st.depth ≤ st.verbosity)))) = true
           then 1 else 0))
    ∧ ((!st.muted && ((!dbg || st.debug) &&
          (st.verbosity == -1 || decide (st.depth ≤ st.verbosity)))) = false →
        Logger.logln st data ty dbg = st)
    ∧ (∀ args, Logger.write st args = Logger.log st (Logger.arr2str args) none false)
    ∧ (∀ args, Logger.writeln st args = Logger.logln st (Logger.arr2str args) none false)
    ∧ (∀ args, Logger.info st args
        = Logger.log st (Logger.arr2str args) (some ("info")) false)
    ∧ (∀ args, Logger.infoln st args
        = Logger.logln st (Logger.arr2str args) (some ("info")) false)
    ∧ (∀ args, Logger.warn st args
        = Logger.log st (Logger.arr2str args) (some ("warn")) false)
    ∧ (∀ args, Logger.warnln st args
        = Logger.logln st (Logger.arr2str args) (some ("warn")) false)
    ∧ (∀ args, Logger.error st args
        = Logger.log st (Logger.arr2str args) (some ("error")) false)
    ∧ (∀ args, Logger.errorln st args
        = Logger.logln st (Logger.arr2str args) (some ("error")) false)
    ∧ (∀ args, Logger.success st args
        = Logger.log st (Logger.arr2str args) (some ("success")) false)
    ∧ (∀ args, Logger.successln st args
        = Logger.logln st (Logger.arr2str args) (some ("success")) false)
    ∧ (∀ args, Logger.debug st args
        = Logger.log st (Logger.arr2str args) (some ("debug")) true)
    ∧ (∀ args, Logger.debugln st args
        = Logger.logln st (Logger.arr2str args) (some ("debug")) true) := by
  have hc := checkLevel_eq st dbg
  refine ⟨?_, ?_, ?_, ?_, fun _ => rfl, fun _ => rfl, fun _ => rfl, fun _ => rfl,
    fun _ => rfl, fun _ => rfl, fun _ => rfl, fun _ => rfl, fun _ => rfl,
    fun _ => rfl, fun _ => rfl, fun _ => rfl⟩
  · rw [← hc]
    unfold Logger.log
    cases h : (!st.muted && Logger.checkLevel st dbg) <;> simp [h]
  · rw [← hc]
    intro h
    unfold Logger.log
    rw [h]
    simp
  · rw [← hc]
    unfold Logger.logln
    cases h : (!st.muted && Logger.checkLevel st dbg) <;> simp [h]
  · rw [← hc]
    intro h
    unfold Logger.logln
    rw [h]
    simp

/-- Witness for C10: a muted logger ignores a write entirely. -/
theorem logger_emission_condition_witness :
    Logger.log (Logger.mute freshLog) ("x") none false = Logger.mute freshLog :=
  (logger_emission_condition (Logger.mute freshLog) ("x") none false).2.1
    (by decide)

end Automaton
